import Mathlib

/-!
Verification of the pretty-gpx city data pipeline (roads, rivers, points of
interest) against its natural-language specification.

The Python sources under `pretty_gpx/rendering_modes/city/data/` are embedded
shallowly below: Python floats become rationals (exact arithmetic) except where
noted, and quantities involving the radians-to-degrees conversion (a factor of
180 / pi) live in the real numbers.  Python dicts become association lists with
first-match lookup and in-place update.  Helper modules that are not part of
the provided sources (Overpass batching, pickled caches, geodesic distance)
are modelled from the specification, each with a doc comment saying so.
-/

namespace PrettyGpx

/-! ### `common/utils/utils.py` -/

/-- Constant `EARTH_RADIUS_M = 6371000` from `common/utils/utils.py`. -/
def EARTH_RADIUS_M : ℝ := 6371000

/-- Conversion `np.rad2deg`: multiply by `180 / pi`. -/
noncomputable def rad2deg (x : ℝ) : ℝ := x * (180 / Real.pi)

/-- Modelled from the spec: `GpxBounds` is an immutable geographic extent
(min/max longitude/latitude, degrees) plus the derived diagonal distance in
meters.  The formula computing the diagonal lives in `common/gpx/gpx_bounds.py`
which is not among the provided sources, so the derived value is carried as
data. -/
structure GpxBounds where
  lon_min : ℚ
  lon_max : ℚ
  lat_min : ℚ
  lat_max : ℚ
  diagonal_m : ℚ
deriving DecidableEq

/-! ### `rendering_modes/city/data/rivers.py` -/

/-- Constant `RIVER_LINE_WIDTH_M = 15`. -/
def RIVER_LINE_WIDTH_M : ℝ := 15

/-- Constant `RIVER_LINE_WIDTH = np.rad2deg(RIVER_LINE_WIDTH_M / EARTH_RADIUS_M)`. -/
noncomputable def RIVER_LINE_WIDTH : ℝ := rad2deg (RIVER_LINE_WIDTH_M / EARTH_RADIUS_M)

/-- Function `get_stream_visualization` from `rivers.py`, verbatim over the reals:
constants `MAX_DISTANCE = 10000`, `MIN_DISTANCE = 2000`, `MAX_WIDTH_M = 4`,
`MIN_WIDTH_M = 2`; the locals `factor = ((10000 - d) / (10000 - 2000))^2` and
`width_m = 2 + (4 - 2) * factor` are inlined. -/
noncomputable def get_stream_visualization (domain_diagonal : ℝ) : ℝ × ℝ :=
  if 10000 ≤ domain_diagonal then (0, 0)
  else if domain_diagonal ≤ 2000 then (rad2deg (4 / EARTH_RADIUS_M), 1)
  else
    (rad2deg ((2 + (4 - 2) * ((10000 - domain_diagonal) / (10000 - 2000)) ^ 2) / EARTH_RADIUS_M),
     ((10000 - domain_diagonal) / (10000 - 2000)) ^ 2)

/-- Modelled from the spec: raw water polygons are tracked only by provenance
(which of the three synthesis sources produced them), since the geometric
helpers (`get_polygons_from_relations`, `get_polygons_from_closed_ways`,
`get_rivers_polygons_from_lines` in `common/data/overpass_processing.py`) are
not among the provided sources. -/
inductive Polygon where
  | fromRelation (id : ℕ)
  | fromClosedWay (id : ℕ)
  | buffered (lineId : ℕ) (width : ℝ)

/-- Dataclass `PolygonAlpha`: a polygon set together with an opacity. -/
structure PolygonAlpha where
  polygons : List Polygon
  alpha : ℝ

/-- Modelled from the spec: the named results of the four rivers/streams
sub-queries, reduced to the element identifiers each one returns. -/
structure RiversQueryData where
  relationIds : List ℕ
  closedWayIds : List ℕ
  riverLineIds : List ℕ
  streamLineIds : List ℕ

/-- Modelled from the spec: polygons from multipolygon relations. -/
def get_polygons_from_relations (ids : List ℕ) : List Polygon :=
  ids.map Polygon.fromRelation

/-- Modelled from the spec: polygons from closed ways tagged as water. -/
def get_polygons_from_closed_ways (ids : List ℕ) : List Polygon :=
  ids.map Polygon.fromClosedWay

/-- Modelled from the spec: buffer open waterway center-lines to polygons of
the given width (in degrees). -/
noncomputable def get_rivers_polygons_from_lines (ids : List ℕ) (width : ℝ) : List Polygon :=
  ids.map (fun i => Polygon.buffered i width)

/-- Modelled from the spec: rasterize a polygon list into one drawable layer;
the drawable keeps exactly the polygons, in order. -/
def create_patch_collection_from_polygons (polys : List Polygon) : List Polygon := polys

/-- Function `process_city_rivers` from `rivers.py`.  The cache branch
(`query.is_cached` / `read_pickle`) is modelled by the `cached` argument:
`some r` is a cache hit returning `r` unchanged, `none` is a cache miss. -/
noncomputable def process_city_rivers (cached : Option (List PolygonAlpha))
    (q : RiversQueryData) (bounds : GpxBounds) : List PolygonAlpha :=
  match cached with
  | some rivers_result => rivers_result
  | none =>
    let caracteristic_length : ℝ := (bounds.diagonal_m : ℚ)
    let rivers_relations := get_polygons_from_relations q.relationIds
    let rivers_ways := get_polygons_from_closed_ways q.closedWayIds
    let rivers := rivers_relations ++ rivers_ways
    let rivers_lines_polygons := get_rivers_polygons_from_lines q.riverLineIds RIVER_LINE_WIDTH
    let rivers := rivers_lines_polygons ++ rivers
    let rivers_patches := create_patch_collection_from_polygons rivers
    let rivers_result : List PolygonAlpha := [⟨rivers_patches, 1.0⟩]
    let sv := get_stream_visualization caracteristic_length
    if 0 < sv.1 then
      rivers_result ++
        [⟨create_patch_collection_from_polygons
            (get_rivers_polygons_from_lines q.streamLineIds sv.1), sv.2⟩]
    else rivers_result

/-! ### `rendering_modes/city/data/roads.py` -/

/-- A sequence of (lon, lat) coordinates (`ListLonLat`). -/
abbrev ListLonLat := List (ℚ × ℚ)

/-- Enum `CityRoadType`. -/
inductive CityRoadType where
  | HIGHWAY
  | SECONDARY_ROAD
  | STREET
  | ACCESS_ROAD
deriving DecidableEq

/-- Dataclass `RoadTypeData`. -/
structure RoadTypeData where
  tags : List String
  priority : ℕ
  query_name : String

/-- Dict `ROAD_PRECISION_LEVEL`. -/
def ROAD_PRECISION_LEVEL : List (String × ℕ) :=
  [("Low", 0), ("Medium", 1), ("High", 2), ("Very High", 3)]

/-- Dict `ROAD_TYPE_DATA` (keyed by the enum, so a total function here). -/
def ROAD_TYPE_DATA : CityRoadType → RoadTypeData
  | .HIGHWAY => ⟨["motorway", "trunk", "primary"], 0, "highway"⟩
  | .SECONDARY_ROAD => ⟨["tertiary", "secondary"], 1, "secondary_roads"⟩
  | .STREET => ⟨["residential", "living_street"], 2, "street"⟩
  | .ACCESS_ROAD => ⟨["unclassified", "service"], 3, "access_roads"⟩

/-- Iteration order of the `ROAD_TYPE_DATA` dict (insertion order, which the
source asserts equals ascending priority). -/
def ALL_CITY_ROAD_TYPES : List CityRoadType :=
  [.HIGHWAY, .SECONDARY_ROAD, .STREET, .ACCESS_ROAD]

/-- Function `get_city_roads_with_priority_better_than`. -/
def get_city_roads_with_priority_better_than (x : ℕ) : List CityRoadType :=
  ALL_CITY_ROAD_TYPES.filter (fun road_type => (ROAD_TYPE_DATA road_type).priority ≤ x)

/-- A Python dict from road type to lists of way coordinates, as an
association list in insertion order with unique keys. -/
abbrev RoadsDict := List (CityRoadType × List ListLonLat)

/-- Keys of a `RoadsDict`, in insertion order. -/
def dictKeys (d : RoadsDict) : List CityRoadType := d.map Prod.fst

/-- Python dict subscript read: first matching key. -/
def dictLookup (d : RoadsDict) (k : CityRoadType) : Option (List ListLonLat) :=
  match d with
  | [] => none
  | (k₀, v₀) :: rest => if k₀ = k then some v₀ else dictLookup rest k

/-- Python dict subscript write: update in place, or append a new key. -/
def dictInsert (d : RoadsDict) (k : CityRoadType) (v : List ListLonLat) : RoadsDict :=
  match d with
  | [] => [(k, v)]
  | (k₀, v₀) :: rest => if k₀ = k then (k₀, v) :: rest else (k₀, v₀) :: dictInsert rest k v

/-- Cache name `ROADS_CACHE.name`. -/
def ROADS_CACHE_NAME : String := "roads"

/-- Modelled from the spec: the mutable state of the shared `OverpassQuery`
batcher (`common/request/overpass_request.py` is not among the provided
sources).  It records, in order, the array names registered via
`add_overpass_query` and the cache names registered via `add_cached_result`. -/
structure OverpassQueryState where
  subQueries : List String
  cachedNames : List String
deriving DecidableEq

/-- Modelled from the spec: a raw Overpass sub-query result, reduced to the
way coordinates that `get_ways_coordinates_from_results` extracts from it. -/
structure OverpassRoadsResult where
  ways_coords : List ListLonLat

/-- Modelled from the spec: extract ordered coordinate sequences per way from
a raw result (`get_ways_coordinates_from_results`). -/
def get_ways_coordinates_from_results (result : OverpassRoadsResult) : List ListLonLat :=
  result.ways_coords

/-- Function `prepare_download_city_roads` from `roads.py`.  The on-disk roads cache
entry for the given bounds is `disk` (`none` when `os.path.isfile` is false).
Returns `none` when the `assert road_precision in ROAD_PRECISION_LEVEL.keys()`
fails, otherwise the updated query state and `roads_to_plot`. -/
def prepare_download_city_roads (query : OverpassQueryState) (disk : Option RoadsDict)
    (road_precision : String) : Option (OverpassQueryState × List CityRoadType) :=
  match ROAD_PRECISION_LEVEL.lookup road_precision with
  | none => none
  | some level =>
    let roads_to_plot := get_city_roads_with_priority_better_than level
    let (query, roads_to_plot) :=
      match disk with
      | none => (query, roads_to_plot)
      | some cityroads_cache =>
        let roads_types_cache := dictKeys cityroads_cache
        let query := { query with cachedNames := query.cachedNames ++ [ROADS_CACHE_NAME] }
        if roads_to_plot.all (fun key => decide (key ∈ roads_types_cache)) then
          (query, [])
        else
          (query, roads_to_plot.filter (fun key => decide (key ∉ roads_types_cache)))
    -- the `if len(roads_to_plot) > 0` guard around the loop is a no-op:
    -- appending an empty batch of sub-queries changes nothing
    ({ query with
        subQueries := query.subQueries ++
          roads_to_plot.map (fun city_road_type => (ROAD_TYPE_DATA city_road_type).query_name) },
      roads_to_plot)

/-- Errors `process_city_roads` can raise. -/
inductive RoadsError where
  | missingCache   -- FileNotFoundError("Query is supposed to be cached but it is not.")
  | keyError       -- KeyError from a dict subscript
  | cacheReadError -- read_pickle on a registered cache path with no file behind it
deriving DecidableEq

/-- The dict comprehension `{road_type: roads[road_type] for road_type in
roads_to_plot}`; a missing key raises `KeyError`. -/
def roadsToReturn (roads : RoadsDict) : List CityRoadType → Except RoadsError RoadsDict
  | [] => .ok []
  | road_type :: rest =>
    match dictLookup roads road_type with
    | none => .error .keyError
    | some v =>
      match roadsToReturn roads rest with
      | .error e => .error e
      | .ok r => .ok ((road_type, v) :: r)

/-- Output of a successful `process_city_roads` call: the returned dict, the
roads cache entry left on disk, and the final query state. -/
structure ProcessRoadsOutput where
  result : RoadsDict
  disk : Option RoadsDict
  query : OverpassQueryState
deriving DecidableEq

/-- Function `process_city_roads` from `roads.py`; `results` maps a sub-query array
name to the coordinates extracted from its raw result (the composition of
`query.get_query_result` and `get_ways_coordinates_from_results`); `disk` is
the roads cache entry on disk for the given bounds. -/
def process_city_roads (query : OverpassQueryState) (disk : Option RoadsDict)
    (results : String → OverpassRoadsResult)
    (city_roads_downloaded : List CityRoadType) (road_precision : String) :
    Except RoadsError ProcessRoadsOutput :=
  match ROAD_PRECISION_LEVEL.lookup road_precision with
  | none => .error .keyError
  | some level =>
    let roads_to_plot := get_city_roads_with_priority_better_than level
    if 0 < city_roads_downloaded.length then
      let roads₀ : Except RoadsError RoadsDict :=
        if ROADS_CACHE_NAME ∈ query.cachedNames then
          match disk with
          | none => .error .cacheReadError
          | some cached => .ok cached
        else .ok []
      match roads₀ with
      | .error e => .error e
      | .ok roads =>
        let roads := city_roads_downloaded.foldl
          (fun d city_road_type =>
            dictInsert d city_road_type
              (get_ways_coordinates_from_results
                (results (ROAD_TYPE_DATA city_road_type).query_name)))
          roads
        -- write_pickle then add_cached_result happen before the comprehension
        let query := { query with cachedNames := query.cachedNames ++ [ROADS_CACHE_NAME] }
        match roadsToReturn roads roads_to_plot with
        | .error e => .error e
        | .ok ret => .ok ⟨ret, some roads, query⟩
    else if ROADS_CACHE_NAME ∈ query.cachedNames then
      match disk with
      | none => .error .cacheReadError
      | some roads =>
        match roadsToReturn roads roads_to_plot with
        | .error e => .error e
        | .ok ret => .ok ⟨ret, disk, query⟩
    else
      .error .missingCache

/-! ### `rendering_modes/city/data/city_pois.py` -/

/-- Matching with `re.match` against an anchored alternation `^(p1|p2|...)` holds exactly
when some alternative is a prefix of the key; alternatives here are plain
literals.  Matching is done on the underlying character lists. -/
def matchesAnyPrefix (pats : List String) (key : String) : Bool :=
  pats.any (fun p => p.data.isPrefixOf key.data)

/-- Alternatives of `IMPORTANCE_BASIC_TAG_PATTERN`. -/
def IMPORTANCE_BASIC_TAG_ALTERNATIVES : List String :=
  ["heritage", "source", "contact", "architect", "opening_hours", "historic",
   "phone", "email", "website", "importance", "image", "wikimedia_commons"]

/-- Alternatives of `IMPORTANCE_NAME_TAG_PATTERN`. -/
def IMPORTANCE_NAME_TAG_ALTERNATIVES : List String :=
  ["name:", "alt_name", "short_name"]

/-- Test `IMPORTANCE_BASIC_TAG_PATTERN.match(key)` as a Boolean. -/
def basicTagMatch (key : String) : Bool :=
  matchesAnyPrefix IMPORTANCE_BASIC_TAG_ALTERNATIVES key

/-- Test `IMPORTANCE_NAME_TAG_PATTERN.match(key)` as a Boolean. -/
def nameTagMatch (key : String) : Bool :=
  matchesAnyPrefix IMPORTANCE_NAME_TAG_ALTERNATIVES key

/-- OSM tags: a Python dict from tag key to value (unique keys in the real
data; the embedding is an association list with first-match lookup). -/
abbrev Tags := List (String × String)

/-- Python `tags.get(k)`: first matching key, `none` when absent. -/
def tagsGet (tags : Tags) (k : String) : Option String :=
  match tags with
  | [] => none
  | (k₀, v₀) :: rest => if k₀ = k then some v₀ else tagsGet rest k

/-- Contribution of one tag key to the importance count:
`if basic.match: count += 1 elif name.match: count += 2`. -/
def tagKeyScore (key : String) : ℕ :=
  if basicTagMatch key then 1 else if nameTagMatch key then 2 else 0

/-- The fixed building/amenity bonus of `__get_importance_score`. -/
def tagsBonus (tags : Tags) : ℕ :=
  if tagsGet tags "building" = some "cathedral" then 5
  else if tagsGet tags "amenity" = some "theatre" then 5
  else if tagsGet tags "building" = some "palace" then 10
  else if tagsGet tags "building" = some "castle" then 3
  else 0

/-- The total computed by `__get_importance_score` before the threshold. -/
def importanceTotal (tags : Tags) : ℕ :=
  (tags.map (fun kv => tagKeyScore kv.1)).sum + tagsBonus tags

/-- Function `__get_importance_score`: the total when it reaches 5, else `None`. -/
def __get_importance_score (tags : Tags) : Option ℕ :=
  let count := importanceTotal tags
  if 5 ≤ count then some count else none

/-- Enum `ScatterPointCategory` (only the variant the POI pipeline uses; the enum
lives in a source file not included). -/
inductive ScatterPointCategory where
  | CITY_POI_DEFAULT
deriving DecidableEq

/-- Dataclass `CandidateCityPoi`; `center_lonlat` is set in `__post_init__`
as the mean of the footprint coordinates (see `mkCandidateCityPoi`); the field
is carried as data so the deduplication code can be studied on arbitrary
candidate lists. -/
structure CandidateCityPoi where
  category : ScatterPointCategory
  name : String
  importance : ℤ
  poly_lonlat : ListLonLat
  center_lonlat : ℚ × ℚ
deriving DecidableEq

/-- Constructor `CandidateCityPoi.__post_init__`: the center is the coordinate-wise mean
of `poly_lonlat` (`np.mean(..., axis=0)`). -/
def mkCandidateCityPoi (category : ScatterPointCategory) (name : String)
    (importance : ℤ) (poly_lonlat : ListLonLat) : CandidateCityPoi :=
  ⟨category, name, importance, poly_lonlat,
    ((poly_lonlat.map Prod.fst).sum / (poly_lonlat.length : ℚ),
     (poly_lonlat.map Prod.snd).sum / (poly_lonlat.length : ℚ))⟩

/-- Dataclass `ScatterPoint` (from a source file not included; the spec gives its fields
as name, lon, lat, category). -/
structure ScatterPoint where
  name : String
  lat : ℚ
  lon : ℚ
  category : ScatterPointCategory
deriving DecidableEq

/-- Function `__filter_close_gpx`, with the per-point distance-to-track function
abstracted: `gpx.get_distances_m` (Shapely plus a local projection, in
`gpx_track.py`) is modelled from the spec as an arbitrary function
`distToTrack` giving the metric distance from one footprint point to the
track; `np.min` over the footprint is kept.  A candidate with an empty
footprint would make `np.min` raise, and is never constructed; it is dropped
here. -/
def __filter_close_gpx (distToTrack : ℚ × ℚ → ℚ)
    (city_pois : List CandidateCityPoi) : List CandidateCityPoi :=
  city_pois.filter (fun city_poi =>
    match (city_poi.poly_lonlat.map distToTrack).min? with
    | none => false
    | some min_distance =>
      let ths_m : ℚ := if 70 < city_poi.importance then 800
        else if 30 < city_poi.importance then 500 else 150
      decide (min_distance < ths_m))

/-- Descending-importance comparison used by the stable sorts
(`sorted(key=importance, reverse=True)`). -/
def byImportanceDesc (a b : CandidateCityPoi) : Bool :=
  decide (b.importance ≤ a.importance)

/-- The greedy loop of `__nms_city_pois`.  `kept` holds the already-kept
candidates in order; the source indexes a boolean mask instead, with index 0
always kept, so `i != 0` is equivalent to `kept` being non-empty, and
`np.min(dist_matrix[i][keep]) < ths` holds exactly when some kept candidate
is closer than `ths`. -/
def nmsGo (pairDist : ℚ × ℚ → ℚ × ℚ → ℚ) (ths : ℚ)
    (kept : List CandidateCityPoi) :
    List CandidateCityPoi → List CandidateCityPoi
  | [] => []
  | c :: rest =>
    if kept.any (fun k => decide (pairDist c.center_lonlat k.center_lonlat < ths)) then
      nmsGo pairDist ths kept rest
    else
      c :: nmsGo pairDist ths (kept ++ [c]) rest

/-- Function `__nms_city_pois`, with `get_pairwise_distance_m` (from a source file not
included) modelled from the spec as an arbitrary pairwise metric-distance
function on centers. -/
def __nms_city_pois (pairDist : ℚ × ℚ → ℚ × ℚ → ℚ)
    (city_pois : List CandidateCityPoi) (bounds : GpxBounds) : List CandidateCityPoi :=
  if city_pois.length = 0 then []
  else
    let ths : ℚ := 0.02 * bounds.diagonal_m
    let sorted := city_pois.mergeSort byImportanceDesc
    nmsGo pairDist ths [] sorted

/-- Function `__take_n_best`. -/
def __take_n_best (city_pois : List CandidateCityPoi) (n : ℕ) : List CandidateCityPoi :=
  (city_pois.mergeSort byImportanceDesc).take n

/-- Modelled from the spec: a GPX track, reduced to what the POI pipeline
reads from it — its bounds and the metric distance from a point to the track
geometry (`get_distances_m` uses Shapely through a local projection). -/
structure GpxTrack where
  bounds : GpxBounds
  distToTrack : ℚ × ℚ → ℚ

/-- Modelled from the spec: an OSM way from the POI sub-query result, reduced
to its tags, the coordinates `get_way_coordinates` extracts, and the name
`get_shortest_name` picks (assumed present, as `safe(...)` asserts). -/
structure OsmWay where
  tags : Tags
  coords : ListLonLat
  shortestName : String

/-- Modelled from the spec: an OSM relation from the POI sub-query result;
`polys` holds the exterior coordinates of each polygon that
`get_polygons_from_relation` assembles from it. -/
structure OsmRelation where
  tags : Tags
  polys : List ListLonLat
  shortestName : String

/-- Candidate construction from the way results in `process_city_pois`. -/
def candidatesFromWays (ways : List OsmWay) : List CandidateCityPoi :=
  ways.filterMap (fun way =>
    match __get_importance_score way.tags with
    | none => none
    | some importance =>
      let lon_lat := way.coords
      if 0 < lon_lat.length then
        some (mkCandidateCityPoi .CITY_POI_DEFAULT way.shortestName importance lon_lat)
      else none)

/-- Candidate construction from the relation results in `process_city_pois`:
the footprint is the concatenation of the exterior coordinates of the
relation's polygons. -/
def candidatesFromRelations (relations : List OsmRelation) : List CandidateCityPoi :=
  relations.filterMap (fun rel =>
    match __get_importance_score rel.tags with
    | none => none
    | some importance =>
      let lon_lat := rel.polys.flatten
      if 0 < lon_lat.length then
        some (mkCandidateCityPoi .CITY_POI_DEFAULT rel.shortestName importance lon_lat)
      else none)

/-- The `ScatterPoint` conversion at the end of `process_city_pois`. -/
def toScatterPoint (city_poi : CandidateCityPoi) : ScatterPoint :=
  ⟨city_poi.name, city_poi.center_lonlat.2, city_poi.center_lonlat.1, city_poi.category⟩

/-- Function `process_city_pois` from `city_pois.py`.  The cache branch is modelled by
the `cached` argument (`some r`: cache hit returning `r`); `ways` and
`relations` are the two named sub-query results. -/
def process_city_pois (cached : Option (List ScatterPoint))
    (ways : List OsmWay) (relations : List OsmRelation)
    (pairDist : ℚ × ℚ → ℚ × ℚ → ℚ) (gpx_track : GpxTrack) : List ScatterPoint :=
  match cached with
  | some r => r
  | none =>
    let candidates := candidatesFromWays ways ++ candidatesFromRelations relations
    let candidates := __filter_close_gpx gpx_track.distToTrack candidates
    let candidates := __nms_city_pois pairDist candidates gpx_track.bounds
    let candidates := __take_n_best candidates 6
    candidates.map toScatterPoint

/-! ## Shared helper lemmas -/

theorem rad2deg_mono {x y : ℝ} (h : x ≤ y) : rad2deg x ≤ rad2deg y := by
  unfold rad2deg
  have hpi : (0:ℝ) < 180 / Real.pi := by positivity
  exact mul_le_mul_of_nonneg_right h hpi.le

theorem rad2deg_nonneg {x : ℝ} (h : 0 ≤ x) : 0 ≤ rad2deg x := by
  have := rad2deg_mono h
  simpa [rad2deg] using this

theorem EARTH_RADIUS_M_pos : (0:ℝ) < EARTH_RADIUS_M := by
  unfold EARTH_RADIUS_M; norm_num

/-! ## C2: the stream visibility ramp -/

/-- C2.  Stream visibility ramp: for every diagonal `d`,
`get_stream_visualization d` is `(0, 0)` when `10000 ≤ d`, is
`(degrees(4 / EARTH_RADIUS_M), 1)` when `d ≤ 2000`, and for `2000 < d < 10000`
equals `(degrees((2 + 2·factor) / EARTH_RADIUS_M), factor)` with
`factor = ((10000 - d) / 8000)^2`; moreover both components are monotonically
non-decreasing in `10000 - d` (equivalently, non-increasing in `d`). -/
theorem stream_visualization_ramp :
    (∀ d : ℝ, 10000 ≤ d → get_stream_visualization d = (0, 0))
    ∧ (∀ d : ℝ, d ≤ 2000 → get_stream_visualization d = (rad2deg (4 / EARTH_RADIUS_M), 1))
    ∧ (∀ d : ℝ, 2000 < d → d < 10000 →
        get_stream_visualization d =
          (rad2deg ((2 + 2 * ((10000 - d) / 8000) ^ 2) / EARTH_RADIUS_M),
           ((10000 - d) / 8000) ^ 2))
    ∧ (∀ d₁ d₂ : ℝ, d₁ ≤ d₂ →
        (get_stream_visualization d₂).1 ≤ (get_stream_visualization d₁).1
        ∧ (get_stream_visualization d₂).2 ≤ (get_stream_visualization d₁).2) := by
  have hR := EARTH_RADIUS_M_pos
  refine ⟨?_, ?_, ?_, ?_⟩
  · intro d hd
    simp [get_stream_visualization, if_pos hd]
  · intro d hd
    have h1 : ¬ (10000:ℝ) ≤ d := by linarith
    simp [get_stream_visualization, h1, hd]
  · intro d hlo hhi
    have h1 : ¬ (10000:ℝ) ≤ d := by linarith
    have h2 : ¬ d ≤ (2000:ℝ) := by linarith
    simp only [get_stream_visualization, h1, h2, if_false]
    norm_num
  · intro d₁ d₂ h
    -- the two components, as functions of `d`, in closed form on each branch
    rcases le_or_lt 10000 d₁ with h1 | h1
    · have h2 : (10000:ℝ) ≤ d₂ := le_trans h1 h
      simp [get_stream_visualization, if_pos h1, if_pos h2]
    · rcases le_or_lt 10000 d₂ with h2 | h2
      · -- d₂ in the zero branch, d₁ below it: both components of f d₁ are ≥ 0
        have hz : get_stream_visualization d₂ = (0, 0) := by
          simp [get_stream_visualization, if_pos h2]
        rw [hz]
        have h1n : ¬ (10000:ℝ) ≤ d₁ := by linarith
        rcases le_or_lt d₁ 2000 with h3 | h3
        · simp only [get_stream_visualization, h1n, if_false, if_pos h3]
          constructor
          · exact rad2deg_nonneg (by positivity)
          · norm_num
        · have h3n : ¬ d₁ ≤ (2000:ℝ) := by linarith
          simp only [get_stream_visualization, h1n, h3n, if_false]
          constructor
          · exact rad2deg_nonneg (by positivity)
          · positivity
      · rcases le_or_lt d₂ 2000 with h3 | h3
        · -- both in the full-visibility branch
          have h4 : d₁ ≤ (2000:ℝ) := le_trans h h3
          have h1n : ¬ (10000:ℝ) ≤ d₁ := by linarith
          have h2n : ¬ (10000:ℝ) ≤ d₂ := by linarith
          simp [get_stream_visualization, h1n, h2n, h3, h4]
        · -- d₂ in the middle branch
          have h2n : ¬ (10000:ℝ) ≤ d₂ := by linarith
          have h3n : ¬ d₂ ≤ (2000:ℝ) := by linarith
          have hf2_le_one : ((10000 - d₂) / (10000 - 2000)) ^ 2 ≤ 1 := by
            rw [sq_le_one_iff_abs_le_one, abs_le]
            constructor <;> [nlinarith; nlinarith]
          have hf2_nonneg : 0 ≤ ((10000 - d₂) / (10000 - 2000)) ^ 2 := sq_nonneg _
          rcases le_or_lt d₁ 2000 with h4 | h4
          · -- d₁ in the full-visibility branch
            have h1n : ¬ (10000:ℝ) ≤ d₁ := by linarith
            simp only [get_stream_visualization, h1n, h2n, h3n, if_false, if_pos h4]
            constructor
            · apply rad2deg_mono
              exact (div_le_div_iff_of_pos_right hR).mpr (by nlinarith)
            · exact hf2_le_one
          · -- both in the middle branch
            have h1n : ¬ (10000:ℝ) ≤ d₁ := by linarith
            have h4n : ¬ d₁ ≤ (2000:ℝ) := by linarith
            simp only [get_stream_visualization, h1n, h2n, h3n, h4n, if_false]
            have hfle : ((10000 - d₂) / (10000 - 2000)) ^ 2
                ≤ ((10000 - d₁) / (10000 - 2000)) ^ 2 := by
              have hnum : (0:ℝ) ≤ (10000 - d₂) / (10000 - 2000) :=
                div_nonneg (by linarith) (by norm_num)
              have hmono : (10000 - d₂) / (10000 - 2000) ≤ (10000 - d₁) / (10000 - 2000) :=
                (div_le_div_iff_of_pos_right (by norm_num)).mpr (by linarith)
              exact pow_le_pow_left₀ hnum hmono 2
            constructor
            · apply rad2deg_mono
              exact (div_le_div_iff_of_pos_right hR).mpr (by nlinarith)
            · exact hfle



/-! ## C3: river polygon assembly order -/

/-- C3 counterexample.  With one relation polygon, one closed-way polygon and
one open-waterway line, the cache-miss opacity-1.0 layer of
`process_city_rivers` is `[buffered line, relation polygon, closed-way
polygon]`, which differs from the order the claim states (line-buffered, then
closed ways, then relations). -/
theorem rivers_polygon_order_cex :
    (process_city_rivers none ⟨[0], [0], [5], []⟩ ⟨0, 1, 0, 1, 20000⟩).head? =
      some ⟨[Polygon.buffered 5 RIVER_LINE_WIDTH, Polygon.fromRelation 0,
             Polygon.fromClosedWay 0], 1.0⟩
    ∧ [Polygon.buffered 5 RIVER_LINE_WIDTH, Polygon.fromRelation 0, Polygon.fromClosedWay 0]
      ≠ [Polygon.buffered 5 RIVER_LINE_WIDTH, Polygon.fromClosedWay 0,
         Polygon.fromRelation 0] := by
  constructor
  · simp only [process_city_rivers, get_polygons_from_relations,
      get_polygons_from_closed_ways, get_rivers_polygons_from_lines,
      create_patch_collection_from_polygons, List.map_cons, List.map_nil]
    split <;> rfl
  · simp

/-- C3 (amended).  On a cache miss, the opacity-1.0 drawable polygon list of
`process_city_rivers` is the concatenation, in this order, of (1) polygons
buffered from open waterway center-lines at width `RIVER_LINE_WIDTH =
degrees(15 / EARTH_RADIUS_M)`, then (2) polygons from multipolygon relations,
then (3) polygons from closed ways. -/
theorem rivers_polygon_order (q : RiversQueryData) (bounds : GpxBounds) :
    (process_city_rivers none q bounds).head? =
      some ⟨get_rivers_polygons_from_lines q.riverLineIds RIVER_LINE_WIDTH ++
            get_polygons_from_relations q.relationIds ++
            get_polygons_from_closed_ways q.closedWayIds, 1.0⟩ := by
  simp only [process_city_rivers, create_patch_collection_from_polygons]
  split
  · simp [List.append_assoc]
  · simp [List.append_assoc]

/-! ## Roads: dict and pipeline lemmas -/

theorem mem_dictKeys_insert (d : RoadsDict) (k : CityRoadType) (v : List ListLonLat)
    (x : CityRoadType) :
    x ∈ dictKeys (dictInsert d k v) ↔ x ∈ dictKeys d ∨ x = k := by
  induction d with
  | nil => simp [dictInsert, dictKeys]
  | cons hd tl ih =>
    obtain ⟨k₀, v₀⟩ := hd
    by_cases hk : k₀ = k
    · subst hk
      simp [dictInsert, dictKeys]
      tauto
    · simp only [dictInsert, if_neg hk, dictKeys, List.map_cons, List.mem_cons]
      rw [show dictKeys (dictInsert tl k v) = (dictInsert tl k v).map Prod.fst from rfl] at ih
      rw [show dictKeys tl = tl.map Prod.fst from rfl] at ih
      tauto

theorem dictLookup_eq_none_iff (d : RoadsDict) (k : CityRoadType) :
    dictLookup d k = none ↔ k ∉ dictKeys d := by
  induction d with
  | nil => simp [dictLookup, dictKeys]
  | cons hd tl ih =>
    obtain ⟨k₀, v₀⟩ := hd
    by_cases hk : k₀ = k
    · subst hk
      simp [dictLookup, dictKeys]
    · simp only [dictLookup, if_neg hk, dictKeys, List.map_cons, List.mem_cons]
      rw [show dictKeys tl = tl.map Prod.fst from rfl] at ih
      rw [ih]
      have hk' : ¬ k = k₀ := fun h => hk h.symm
      tauto

theorem mem_dictKeys_foldl_insert (f : CityRoadType → List ListLonLat)
    (ts : List CityRoadType) (d : RoadsDict) (x : CityRoadType) :
    x ∈ dictKeys (ts.foldl (fun a t => dictInsert a t (f t)) d) ↔
      x ∈ dictKeys d ∨ x ∈ ts := by
  induction ts generalizing d with
  | nil => simp
  | cons t rest ih =>
    simp only [List.foldl_cons, List.mem_cons]
    rw [ih, mem_dictKeys_insert]
    tauto

theorem roadsToReturn_ok_of_mem (roads : RoadsDict) (ts : List CityRoadType)
    (h : ∀ t ∈ ts, t ∈ dictKeys roads) :
    ∃ r, roadsToReturn roads ts = .ok r ∧ dictKeys r = ts := by
  induction ts with
  | nil => exact ⟨[], rfl, rfl⟩
  | cons t rest ih =>
    have ht : t ∈ dictKeys roads := h t (List.mem_cons_self t rest)
    obtain ⟨v, hv⟩ : ∃ v, dictLookup roads t = some v := by
      cases hl : dictLookup roads t with
      | none => exact absurd ((dictLookup_eq_none_iff roads t).mp hl) (not_not_intro ht)
      | some v => exact ⟨v, rfl⟩
    obtain ⟨r, hr, hkeys⟩ := ih (fun x hx => h x (List.mem_cons_of_mem t hx))
    refine ⟨(t, v) :: r, ?_, ?_⟩
    · simp [roadsToReturn, hv, hr]
    · simp [dictKeys, List.map_cons]
      rw [show dictKeys r = r.map Prod.fst from rfl] at hkeys
      rw [hkeys]

theorem prepare_cached_spec (query : OverpassQueryState) (disk : RoadsDict)
    (road_precision : String) (level : ℕ)
    (hlevel : ROAD_PRECISION_LEVEL.lookup road_precision = some level) :
    prepare_download_city_roads query (some disk) road_precision =
      some
        (⟨query.subQueries ++
            ((get_city_roads_with_priority_better_than level).filter
              (fun key => decide (key ∉ dictKeys disk))).map
              (fun city_road_type => (ROAD_TYPE_DATA city_road_type).query_name),
          query.cachedNames ++ [ROADS_CACHE_NAME]⟩,
         (get_city_roads_with_priority_better_than level).filter
           (fun key => decide (key ∉ dictKeys disk))) := by
  by_cases hall : (get_city_roads_with_priority_better_than level).all
      (fun key => decide (key ∈ dictKeys disk)) = true
  · have hnil : (get_city_roads_with_priority_better_than level).filter
        (fun key => decide (key ∉ dictKeys disk)) = [] := by
      rw [List.filter_eq_nil_iff]
      intro a ha
      have h := List.all_eq_true.mp hall a ha
      simp only [decide_eq_true_eq] at h
      simp [h]
    simp [prepare_download_city_roads, hlevel, hall, hnil]
    intro a ha
    have h := List.all_eq_true.mp hall a ha
    simpa using h
  · simp [prepare_download_city_roads, hlevel, hall]

theorem process_no_download_spec (query : OverpassQueryState) (disk : RoadsDict)
    (results : String → OverpassRoadsResult) (road_precision : String) (level : ℕ)
    (hlevel : ROAD_PRECISION_LEVEL.lookup road_precision = some level)
    (hmem : ROADS_CACHE_NAME ∈ query.cachedNames)
    (hsub : ∀ t ∈ get_city_roads_with_priority_better_than level, t ∈ dictKeys disk) :
    ∃ ret, process_city_roads query (some disk) results [] road_precision =
        .ok ⟨ret, some disk, query⟩
      ∧ dictKeys ret = get_city_roads_with_priority_better_than level := by
  obtain ⟨r, hr, hkeys⟩ :=
    roadsToReturn_ok_of_mem disk (get_city_roads_with_priority_better_than level) hsub
  refine ⟨r, ?_, hkeys⟩
  simp [process_city_roads, hlevel, hmem, hr]

theorem process_download_spec (query : OverpassQueryState) (disk : RoadsDict)
    (results : String → OverpassRoadsResult) (road_precision : String) (level : ℕ)
    (dl : List CityRoadType)
    (hlevel : ROAD_PRECISION_LEVEL.lookup road_precision = some level)
    (hmem : ROADS_CACHE_NAME ∈ query.cachedNames)
    (hdl : dl ≠ [])
    (hcov : ∀ t ∈ get_city_roads_with_priority_better_than level,
      t ∈ dictKeys disk ∨ t ∈ dl) :
    ∃ ret merged,
      process_city_roads query (some disk) results dl road_precision =
        .ok ⟨ret, some merged,
          { query with cachedNames := query.cachedNames ++ [ROADS_CACHE_NAME] }⟩
      ∧ dictKeys ret = get_city_roads_with_priority_better_than level
      ∧ ∀ x, x ∈ dictKeys merged ↔ x ∈ dictKeys disk ∨ x ∈ dl := by
  have hlen : 0 < dl.length := List.length_pos.mpr hdl
  have hkeys_m : ∀ x,
      x ∈ dictKeys (dl.foldl (fun d city_road_type => dictInsert d city_road_type
        (get_ways_coordinates_from_results
          (results (ROAD_TYPE_DATA city_road_type).query_name))) disk) ↔
      x ∈ dictKeys disk ∨ x ∈ dl := fun x =>
    mem_dictKeys_foldl_insert _ dl disk x
  have hcov' : ∀ t ∈ get_city_roads_with_priority_better_than level,
      t ∈ dictKeys (dl.foldl (fun d city_road_type => dictInsert d city_road_type
        (get_ways_coordinates_from_results
          (results (ROAD_TYPE_DATA city_road_type).query_name))) disk) := by
    intro t ht
    exact (hkeys_m t).mpr (hcov t ht)
  obtain ⟨r, hr, hkeys⟩ :=
    roadsToReturn_ok_of_mem _ (get_city_roads_with_priority_better_than level) hcov'
  refine ⟨r, _, ?_, hkeys, hkeys_m⟩
  simp [process_city_roads, hlevel, hlen, hmem, hr]

/-! ## C1: incremental road caching -/

/-- C1.  Incremental road caching: when a roads cache entry `disk` (with key
set `P1 = dictKeys disk`) exists for the bounds and the requested precision
resolves to `level` (requested category set
`P2 = get_city_roads_with_priority_better_than level`),
`prepare_download_city_roads` registers overpass sub-queries exactly for the
categories of `P2` missing from `P1` (so none when `P1` covers `P2`), and
`process_city_roads` run on its output succeeds, leaves a cache entry whose
key set is exactly `P1 ∪ P2`, and returns a dictionary whose keys are exactly
`P2`. -/
theorem roads_incremental_caching (query : OverpassQueryState) (disk : RoadsDict)
    (results : String → OverpassRoadsResult) (road_precision : String) (level : ℕ)
    (hlevel : ROAD_PRECISION_LEVEL.lookup road_precision = some level) :
    ∃ query1 out,
      prepare_download_city_roads query (some disk) road_precision =
        some (query1,
          (get_city_roads_with_priority_better_than level).filter
            (fun key => decide (key ∉ dictKeys disk)))
      ∧ query1.subQueries = query.subQueries ++
          ((get_city_roads_with_priority_better_than level).filter
            (fun key => decide (key ∉ dictKeys disk))).map
            (fun city_road_type => (ROAD_TYPE_DATA city_road_type).query_name)
      ∧ process_city_roads query1 (some disk) results
          ((get_city_roads_with_priority_better_than level).filter
            (fun key => decide (key ∉ dictKeys disk))) road_precision = .ok out
      ∧ dictKeys out.result = get_city_roads_with_priority_better_than level
      ∧ ∃ newCache, out.disk = some newCache
          ∧ ∀ k, k ∈ dictKeys newCache ↔
              k ∈ dictKeys disk ∨ k ∈ get_city_roads_with_priority_better_than level := by
  classical
  have hprep := prepare_cached_spec query disk road_precision level hlevel
  set dl := (get_city_roads_with_priority_better_than level).filter
    (fun key => decide (key ∉ dictKeys disk)) with hdl
  refine ⟨⟨query.subQueries ++ dl.map
      (fun city_road_type => (ROAD_TYPE_DATA city_road_type).query_name),
      query.cachedNames ++ [ROADS_CACHE_NAME]⟩, ?_⟩
  have hmem : ROADS_CACHE_NAME ∈ query.cachedNames ++ [ROADS_CACHE_NAME] := by simp
  by_cases hdl0 : dl = []
  · -- every requested category is already cached
    have hsub : ∀ t ∈ get_city_roads_with_priority_better_than level,
        t ∈ dictKeys disk := by
      intro t ht
      by_contra hc
      have hmemdl : t ∈ dl := by
        rw [hdl]
        exact List.mem_filter.mpr ⟨ht, by simpa using hc⟩
      rw [hdl0] at hmemdl
      simp at hmemdl
    obtain ⟨r, hr, hkeys⟩ := process_no_download_spec
      ⟨query.subQueries ++ dl.map
        (fun city_road_type => (ROAD_TYPE_DATA city_road_type).query_name),
        query.cachedNames ++ [ROADS_CACHE_NAME]⟩
      disk results road_precision level hlevel hmem hsub
    refine ⟨⟨r, some disk,
      ⟨query.subQueries ++ dl.map
        (fun city_road_type => (ROAD_TYPE_DATA city_road_type).query_name),
        query.cachedNames ++ [ROADS_CACHE_NAME]⟩⟩, hprep, rfl, ?_, hkeys, disk, rfl, ?_⟩
    · rw [hdl0] at hr ⊢
      exact hr
    · intro k
      constructor
      · exact fun h => Or.inl h
      · rintro (h | h)
        · exact h
        · exact hsub k h
  · -- some categories must be fetched and merged
    have hcov : ∀ t ∈ get_city_roads_with_priority_better_than level,
        t ∈ dictKeys disk ∨ t ∈ dl := by
      intro t ht
      by_cases h : t ∈ dictKeys disk
      · exact Or.inl h
      · exact Or.inr (by rw [hdl]; exact List.mem_filter.mpr ⟨ht, by simpa using h⟩)
    obtain ⟨r, merged, hr, hkeys, hkeys_m⟩ := process_download_spec
      ⟨query.subQueries ++ dl.map
        (fun city_road_type => (ROAD_TYPE_DATA city_road_type).query_name),
        query.cachedNames ++ [ROADS_CACHE_NAME]⟩
      disk results road_precision level dl hlevel hmem hdl0 hcov
    refine ⟨⟨r, some merged,
      ⟨query.subQueries ++ dl.map
        (fun city_road_type => (ROAD_TYPE_DATA city_road_type).query_name),
        (query.cachedNames ++ [ROADS_CACHE_NAME]) ++ [ROADS_CACHE_NAME]⟩⟩,
      hprep, rfl, hr, hkeys, merged, rfl, ?_⟩
    intro k
    rw [hkeys_m k]
    constructor
    · rintro (h | h)
      · exact Or.inl h
      · exact Or.inr (List.mem_filter.mp (hdl ▸ h)).1
    · rintro (h | h)
      · exact Or.inl h
      · exact hcov k h

/-- C1 witness: a concrete run with cached key set `{HIGHWAY}` and requested
precision `Medium` (categories `{HIGHWAY, SECONDARY_ROAD}`). -/
theorem roads_incremental_caching_witness :
    ∃ query1 out,
      prepare_download_city_roads ⟨[], []⟩ (some [(.HIGHWAY, [])]) "Medium" =
        some (query1,
          (get_city_roads_with_priority_better_than 1).filter
            (fun key => decide (key ∉ dictKeys [(.HIGHWAY, [])])))
      ∧ query1.subQueries = [] ++
          ((get_city_roads_with_priority_better_than 1).filter
            (fun key => decide (key ∉ dictKeys [(.HIGHWAY, [])]))).map
            (fun city_road_type => (ROAD_TYPE_DATA city_road_type).query_name)
      ∧ process_city_roads query1 (some [(.HIGHWAY, [])]) (fun _ => ⟨[]⟩)
          ((get_city_roads_with_priority_better_than 1).filter
            (fun key => decide (key ∉ dictKeys [(.HIGHWAY, [])]))) "Medium" = .ok out
      ∧ dictKeys out.result = get_city_roads_with_priority_better_than 1
      ∧ ∃ newCache, out.disk = some newCache
          ∧ ∀ k, k ∈ dictKeys newCache ↔
              k ∈ dictKeys [(.HIGHWAY, [])] ∨
                k ∈ get_city_roads_with_priority_better_than 1 :=
  roads_incremental_caching ⟨[], []⟩ [(.HIGHWAY, [])] (fun _ => ⟨[]⟩) "Medium" 1
    (by decide)

/-! ## C7: the missing-cache error -/

theorem roadsToReturn_error_eq (roads : RoadsDict) (ts : List CityRoadType)
    (e : RoadsError) (h : roadsToReturn roads ts = .error e) : e = .keyError := by
  induction ts with
  | nil => simp [roadsToReturn] at h
  | cons t rest ih =>
    rw [roadsToReturn] at h
    cases hl : dictLookup roads t with
    | none =>
      rw [hl] at h
      cases h
      rfl
    | some v =>
      rw [hl] at h
      cases hr : roadsToReturn roads rest with
      | error e₀ =>
        rw [hr] at h
        cases h
        exact ih hr
      | ok r =>
        rw [hr] at h
        cases h

/-- C7 counterexample.  With an empty download list but a registered cached
result whose dict lacks a requested category (empty cache dict, precision
`Low`), `process_city_roads` does not return normally: the dict comprehension
over the requested categories raises a `KeyError`-class error, contradicting
the claim that in every case other than (empty downloads, no cached result)
the function returns normally. -/
theorem missing_cache_error_cex :
    process_city_roads ⟨[], [ROADS_CACHE_NAME]⟩ (some []) (fun _ => ⟨[]⟩) [] "Low"
      = .error .keyError
    ∧ (process_city_roads ⟨[], [ROADS_CACHE_NAME]⟩ (some []) (fun _ => ⟨[]⟩) [] "Low").isOk
      = false := by
  constructor <;> rfl

/-- C7 (amended).  Given a valid precision, `process_city_roads` raises the
internal-consistency `MissingCacheError` (`FileNotFoundError` in the source)
exactly when the freshly-downloaded list is empty and no cached result is
registered under the roads cache name; in every other case it does not raise
this error (though it may still fail with a key-lookup error when the cache or
the fetched results lack a requested category). -/
theorem missing_cache_error_iff (query : OverpassQueryState) (disk : Option RoadsDict)
    (results : String → OverpassRoadsResult) (city_roads_downloaded : List CityRoadType)
    (road_precision : String) (level : ℕ)
    (hlevel : ROAD_PRECISION_LEVEL.lookup road_precision = some level) :
    process_city_roads query disk results city_roads_downloaded road_precision =
        .error .missingCache
      ↔ city_roads_downloaded = [] ∧ ROADS_CACHE_NAME ∉ query.cachedNames := by
  constructor
  · intro h
    by_cases hdl : 0 < city_roads_downloaded.length
    · exfalso
      revert h
      simp only [process_city_roads, hlevel, if_pos hdl]
      by_cases hmem : ROADS_CACHE_NAME ∈ query.cachedNames
      · simp only [if_pos hmem]
        cases disk with
        | none => simp
        | some cached =>
          cases hrr : roadsToReturn
              (city_roads_downloaded.foldl (fun d city_road_type =>
                dictInsert d city_road_type (get_ways_coordinates_from_results
                  (results (ROAD_TYPE_DATA city_road_type).query_name))) cached)
              (get_city_roads_with_priority_better_than level) with
          | error e =>
            have he := roadsToReturn_error_eq _ _ _ hrr
            subst he
            simp [hrr]
          | ok r => simp [hrr]
      · simp only [if_neg hmem]
        cases hrr : roadsToReturn
            (city_roads_downloaded.foldl (fun d city_road_type =>
              dictInsert d city_road_type (get_ways_coordinates_from_results
                (results (ROAD_TYPE_DATA city_road_type).query_name))) [])
            (get_city_roads_with_priority_better_than level) with
        | error e =>
          have he := roadsToReturn_error_eq _ _ _ hrr
          subst he
          simp [hrr]
        | ok r => simp [hrr]
    · have h0 : city_roads_downloaded = [] := by
        cases city_roads_downloaded with
        | nil => rfl
        | cons a l => simp at hdl
      refine ⟨h0, ?_⟩
      intro hmem
      revert h
      subst h0
      simp only [process_city_roads, hlevel, List.length_nil, lt_irrefl, if_false,
        if_pos hmem]
      cases disk with
      | none => simp
      | some roads =>
        cases hrr : roadsToReturn roads (get_city_roads_with_priority_better_than level) with
        | error e =>
          have he := roadsToReturn_error_eq _ _ _ hrr
          subst he
          simp [hrr]
        | ok r => simp [hrr]
  · rintro ⟨h1, h2⟩
    subst h1
    simp [process_city_roads, hlevel, h2]

/-- C7 witness: empty download list and no registered cached result, valid
precision `Low`. -/
theorem missing_cache_error_iff_witness :
    process_city_roads ⟨[], []⟩ none (fun _ => ⟨[]⟩) [] "Low" = .error .missingCache
      ↔ ([] : List CityRoadType) = [] ∧
          ROADS_CACHE_NAME ∉ (⟨[], []⟩ : OverpassQueryState).cachedNames :=
  missing_cache_error_iff ⟨[], []⟩ none (fun _ => ⟨[]⟩) [] "Low" 0 (by decide)

/-! ## C5: POI importance scoring -/

theorem basic_name_alternatives_incomparable :
    ∀ pb ∈ IMPORTANCE_BASIC_TAG_ALTERNATIVES, ∀ pn ∈ IMPORTANCE_NAME_TAG_ALTERNATIVES,
      pb.data.isPrefixOf pn.data = false ∧ pn.data.isPrefixOf pb.data = false := by
  decide

/-- A key matching the naming-evidence pattern cannot also match the basic
pattern: no basic alternative is prefix-comparable with a naming alternative,
and two prefixes of one string are prefix-comparable. -/
theorem basicTagMatch_eq_false_of_name {k : String} (h : nameTagMatch k = true) :
    basicTagMatch k = false := by
  unfold nameTagMatch matchesAnyPrefix at h
  obtain ⟨pn, hpn, hpre⟩ := List.any_eq_true.mp h
  rw [ List.isPrefixOf_iff_prefix] at hpre
  unfold basicTagMatch matchesAnyPrefix
  rw [List.any_eq_false]
  intro pb hpb hcon
  rw [ List.isPrefixOf_iff_prefix] at hcon
  have hinc := basic_name_alternatives_incomparable pb hpb pn hpn
  rcases List.prefix_or_prefix_of_prefix hcon hpre with h1 | h1
  · rw [ List.isPrefixOf_iff_prefix.mpr h1] at hinc
    exact absurd hinc.1 (by simp)
  · rw [ List.isPrefixOf_iff_prefix.mpr h1] at hinc
    exact absurd hinc.2 (by simp)

theorem two_mem_le_sum (g : String → ℕ) (l : List String) (k1 k2 : String)
    (h1 : k1 ∈ l) (h2 : k2 ∈ l) (hne : k1 ≠ k2) :
    g k1 + g k2 ≤ (l.map g).sum := by
  classical
  have hperm : l.Perm (k1 :: l.erase k1) := List.perm_cons_erase h1
  have h2' : k2 ∈ l.erase k1 := (List.mem_erase_of_ne hne.symm).mpr h2
  have hperm2 : (l.erase k1).Perm (k2 :: (l.erase k1).erase k2) := List.perm_cons_erase h2'
  have hsum : (l.map g).sum = g k1 + ((l.erase k1).map g).sum := by
    rw [(hperm.map g).sum_eq]
    simp
  have hsum2 : ((l.erase k1).map g).sum = g k2 + (((l.erase k1).erase k2).map g).sum := by
    rw [(hperm2.map g).sum_eq]
    simp
  rw [hsum, hsum2, ← Nat.add_assoc]
  exact Nat.le_add_right _ _

theorem tagsBonus_of_palace (tags : Tags)
    (hb : tagsGet tags "building" = some "palace") : 5 ≤ tagsBonus tags := by
  unfold tagsBonus
  rw [hb]
  have hc : (some "palace" : Option String) ≠ some "cathedral" := by decide
  rw [if_neg hc]
  by_cases ha : tagsGet tags "amenity" = some "theatre"
  · rw [if_pos ha]
  · rw [if_neg ha, if_pos rfl]
    omega

/-- C5.  POI scoring: `__get_importance_score` returns `none` exactly when the
computed total is below 5; a tag dict with `building = palace` and two
distinct keys matching the naming-evidence pattern scores at least 9 and is
kept (`some` is returned); a tag dict in which no key matches either pattern
and whose `building`/`amenity` values are none of the bonus values totals 0
and is discarded (`none` is returned). -/
theorem importance_score_rules :
    (∀ t : Tags, (__get_importance_score t = none ↔ importanceTotal t < 5))
    ∧ (∀ (tags : Tags) (k1 k2 : String),
        tagsGet tags "building" = some "palace" →
        k1 ∈ tags.map Prod.fst → k2 ∈ tags.map Prod.fst → k1 ≠ k2 →
        nameTagMatch k1 = true → nameTagMatch k2 = true →
        ∃ n, __get_importance_score tags = some n ∧ 9 ≤ n)
    ∧ (∀ t : Tags,
        (∀ k ∈ t.map Prod.fst, basicTagMatch k = false ∧ nameTagMatch k = false) →
        tagsGet t "building" ≠ some "cathedral" →
        tagsGet t "amenity" ≠ some "theatre" →
        tagsGet t "building" ≠ some "palace" →
        tagsGet t "building" ≠ some "castle" →
        importanceTotal t = 0 ∧ __get_importance_score t = none) := by
  refine ⟨?_, ?_, ?_⟩
  · intro t
    simp only [__get_importance_score]
    split
    · simp
      omega
    · simp
      omega
  · intro tags k1 k2 hpalace hk1 hk2 hne hn1 hn2
    have hs1 : tagKeyScore k1 = 2 := by
      unfold tagKeyScore
      rw [basicTagMatch_eq_false_of_name hn1]
      simp [hn1]
    have hs2 : tagKeyScore k2 = 2 := by
      unfold tagKeyScore
      rw [basicTagMatch_eq_false_of_name hn2]
      simp [hn2]
    have hsum : tagKeyScore k1 + tagKeyScore k2 ≤
        ((tags.map Prod.fst).map tagKeyScore).sum :=
      two_mem_le_sum tagKeyScore (tags.map Prod.fst) k1 k2 hk1 hk2 hne
    have hmm : ((tags.map Prod.fst).map tagKeyScore).sum =
        (tags.map (fun kv => tagKeyScore kv.1)).sum := by
      rw [List.map_map]
      rfl
    have hbonus : 5 ≤ tagsBonus tags := tagsBonus_of_palace tags hpalace
    have htotal : 9 ≤ importanceTotal tags := by
      unfold importanceTotal
      rw [hs1, hs2] at hsum
      rw [hmm] at hsum
      omega
    refine ⟨importanceTotal tags, ?_, htotal⟩
    unfold __get_importance_score
    rw [if_pos (by omega)]
  · intro t hkeys hc ha hp hcastle
    have hzero : importanceTotal t = 0 := by
      unfold importanceTotal
      have hsum : (t.map (fun kv => tagKeyScore kv.1)).sum = 0 := by
        apply List.sum_eq_zero
        intro x hx
        obtain ⟨kv, hkv, hxe⟩ := List.mem_map.mp hx
        have hk := hkeys kv.1 (List.mem_map.mpr ⟨kv, hkv, rfl⟩)
        rw [← hxe]
        unfold tagKeyScore
        rw [hk.1, hk.2]
        rfl
      have hbonus : tagsBonus t = 0 := by
        unfold tagsBonus
        rw [if_neg hc, if_neg ha, if_neg hp, if_neg hcastle]
      rw [hsum, hbonus]
    refine ⟨hzero, ?_⟩
    unfold __get_importance_score
    rw [hzero]
    rfl

/-- C5 witness: the three parts of `importance_score_rules` at concrete tag
dicts — a palace with two naming tags (kept with score 14 ≥ 9), and an
unrelated tag dict (discarded with total 0). -/
theorem importance_score_rules_witness :
    (__get_importance_score [("foo", "bar")] = none ↔
      importanceTotal [("foo", "bar")] < 5)
    ∧ (∃ n, __get_importance_score
        [("building", "palace"), ("name:en", "x"), ("alt_name", "y")] = some n ∧ 9 ≤ n)
    ∧ (importanceTotal [("foo", "bar")] = 0 ∧
        __get_importance_score [("foo", "bar")] = none) :=
  ⟨importance_score_rules.1 [("foo", "bar")],
   importance_score_rules.2.1 [("building", "palace"), ("name:en", "x"), ("alt_name", "y")]
     "name:en" "alt_name" (by decide) (by decide) (by decide) (by decide)
     (by decide) (by decide),
   importance_score_rules.2.2 [("foo", "bar")] (by decide) (by decide) (by decide)
     (by decide) (by decide)⟩

/-! ## C6: track-proximity filter -/

/-- C6.  `__filter_close_gpx` keeps a candidate exactly when the minimum
distance from its footprint to the track is strictly below 800 m for
importance above 70, 500 m for importance above 30, and 150 m otherwise;
consequently a candidate of importance 80 at 700 m is kept while a candidate
of importance 20 at the same 700 m is discarded. -/
theorem filter_close_gpx_thresholds :
    (∀ (distToTrack : ℚ × ℚ → ℚ) (city_pois : List CandidateCityPoi)
        (c : CandidateCityPoi),
      c ∈ __filter_close_gpx distToTrack city_pois ↔
        c ∈ city_pois ∧ ∃ m, (c.poly_lonlat.map distToTrack).min? = some m ∧
          m < (if 70 < c.importance then (800:ℚ)
            else if 30 < c.importance then 500 else 150))
    ∧ (⟨.CITY_POI_DEFAULT, "high", 80, [(0, 0)], (0, 0)⟩ : CandidateCityPoi) ∈
        __filter_close_gpx (fun _ => 700)
          [⟨.CITY_POI_DEFAULT, "high", 80, [(0, 0)], (0, 0)⟩,
           ⟨.CITY_POI_DEFAULT, "low", 20, [(0, 0)], (0, 0)⟩]
    ∧ (⟨.CITY_POI_DEFAULT, "low", 20, [(0, 0)], (0, 0)⟩ : CandidateCityPoi) ∉
        __filter_close_gpx (fun _ => 700)
          [⟨.CITY_POI_DEFAULT, "high", 80, [(0, 0)], (0, 0)⟩,
           ⟨.CITY_POI_DEFAULT, "low", 20, [(0, 0)], (0, 0)⟩] := by
  refine ⟨?_, by decide, by decide⟩
  intro distToTrack city_pois c
  rw [__filter_close_gpx, List.mem_filter]
  constructor
  · rintro ⟨hmem, hp⟩
    refine ⟨hmem, ?_⟩
    revert hp
    cases hmin : (c.poly_lonlat.map distToTrack).min? with
    | none => simp
    | some m =>
      intro hp
      refine ⟨m, rfl, ?_⟩
      simpa using hp
  · rintro ⟨hmem, m, hmin, hlt⟩
    refine ⟨hmem, ?_⟩
    rw [hmin]
    simpa using hlt

/-! ## NMS lemmas (C4, C8, C10) -/

theorem byImportanceDesc_trans : ∀ a b c : CandidateCityPoi,
    byImportanceDesc a b → byImportanceDesc b c → byImportanceDesc a c := by
  intro a b c hab hbc
  simp only [byImportanceDesc, decide_eq_true_eq] at hab hbc ⊢
  exact le_trans hbc hab

theorem byImportanceDesc_total : ∀ a b : CandidateCityPoi,
    byImportanceDesc a b || byImportanceDesc b a := by
  intro a b
  simp only [byImportanceDesc, Bool.or_eq_true, decide_eq_true_eq]
  exact le_total b.importance a.importance

theorem nmsGo_sublist (pairDist : ℚ × ℚ → ℚ × ℚ → ℚ) (ths : ℚ) :
    ∀ (l kept : List CandidateCityPoi), (nmsGo pairDist ths kept l).Sublist l := by
  intro l
  induction l with
  | nil => intro kept; simp [nmsGo]
  | cons c rest ih =>
    intro kept
    rw [nmsGo]
    split
    · exact (ih kept).trans (List.sublist_cons_self c rest)
    · exact (ih (kept ++ [c])).cons₂ c

theorem nmsGo_mem_kept (pairDist : ℚ × ℚ → ℚ × ℚ → ℚ) (ths : ℚ) :
    ∀ (l kept : List CandidateCityPoi) (c : CandidateCityPoi),
      c ∈ nmsGo pairDist ths kept l →
      ∀ k ∈ kept, ¬ pairDist c.center_lonlat k.center_lonlat < ths := by
  intro l
  induction l with
  | nil => intro kept c hc; simp [nmsGo] at hc
  | cons a rest ih =>
    intro kept c hc
    rw [nmsGo] at hc
    by_cases hcond : kept.any
        (fun k => decide (pairDist a.center_lonlat k.center_lonlat < ths)) = true
    · rw [if_pos hcond] at hc
      exact ih kept c hc
    · rw [if_neg hcond] at hc
      rcases List.mem_cons.mp hc with hac | hc

      · subst hac
        intro k hk
        have := List.any_eq_false.mp (Bool.not_eq_true _ ▸ hcond) k hk
        simpa using this
      · intro k hk
        exact ih (kept ++ [a]) c hc k (List.mem_append_left _ hk)

theorem nmsGo_pairwise (pairDist : ℚ × ℚ → ℚ × ℚ → ℚ) (ths : ℚ) :
    ∀ (l kept : List CandidateCityPoi),
      (nmsGo pairDist ths kept l).Pairwise
        (fun a b => ¬ pairDist b.center_lonlat a.center_lonlat < ths) := by
  intro l
  induction l with
  | nil => intro kept; simp [nmsGo]
  | cons a rest ih =>
    intro kept
    rw [nmsGo]
    split
    · exact ih kept
    · rw [List.pairwise_cons]
      refine ⟨?_, ih (kept ++ [a])⟩
      intro b hb
      exact nmsGo_mem_kept pairDist ths rest (kept ++ [a]) b hb a
        (List.mem_append_right _ (List.mem_singleton_self a))

theorem nmsGo_idem (pairDist : ℚ × ℚ → ℚ × ℚ → ℚ) (ths : ℚ) :
    ∀ (l kept : List CandidateCityPoi),
      nmsGo pairDist ths kept (nmsGo pairDist ths kept l) = nmsGo pairDist ths kept l := by
  intro l
  induction l with
  | nil => intro kept; simp [nmsGo]
  | cons a rest ih =>
    intro kept
    rw [nmsGo]
    by_cases hcond : kept.any
        (fun k => decide (pairDist a.center_lonlat k.center_lonlat < ths)) = true
    · rw [if_pos hcond]
      exact ih kept
    · rw [if_neg hcond]
      rw [nmsGo, if_neg hcond]
      rw [ih (kept ++ [a])]

/-- C4.  NMS idempotence: for every pairwise-distance function, candidate
list and bounds, applying `__nms_city_pois` to its own output with the same
bounds returns that output unchanged. -/
theorem nms_idempotent (pairDist : ℚ × ℚ → ℚ × ℚ → ℚ)
    (city_pois : List CandidateCityPoi) (bounds : GpxBounds) :
    __nms_city_pois pairDist (__nms_city_pois pairDist city_pois bounds) bounds =
      __nms_city_pois pairDist city_pois bounds := by
  unfold __nms_city_pois
  by_cases h0 : city_pois.length = 0
  · simp [h0]
  · rw [if_neg h0]
    by_cases h1 : (nmsGo pairDist (0.02 * bounds.diagonal_m) []
        (city_pois.mergeSort byImportanceDesc)).length = 0
    · rw [if_pos h1]
      exact (List.length_eq_zero.mp h1).symm
    · rw [if_neg h1]
      have hsorted : (nmsGo pairDist (0.02 * bounds.diagonal_m) []
          (city_pois.mergeSort byImportanceDesc)).Pairwise
          (fun a b => byImportanceDesc a b = true) :=
        List.Pairwise.sublist
          (nmsGo_sublist pairDist (0.02 * bounds.diagonal_m)
            (city_pois.mergeSort byImportanceDesc) [])
          (List.sorted_mergeSort byImportanceDesc_trans byImportanceDesc_total city_pois)
      rw [List.mergeSort_of_sorted hsorted]
      exact nmsGo_idem pairDist (0.02 * bounds.diagonal_m)
        (city_pois.mergeSort byImportanceDesc) []

/-- C8.  NMS keeps the maximum: for every non-empty candidate list, the NMS
output is non-empty, its head is the head of the stable descending-importance
sort (the first element after sorting is always kept), and it contains a
candidate of maximal importance. -/
theorem nms_keeps_max (pairDist : ℚ × ℚ → ℚ × ℚ → ℚ)
    (city_pois : List CandidateCityPoi) (bounds : GpxBounds)
    (h : city_pois ≠ []) :
    __nms_city_pois pairDist city_pois bounds ≠ []
    ∧ (__nms_city_pois pairDist city_pois bounds).head? =
        (city_pois.mergeSort byImportanceDesc).head?
    ∧ ∃ c ∈ __nms_city_pois pairDist city_pois bounds,
        ∀ x ∈ city_pois, x.importance ≤ c.importance := by
  have hlen : ¬ city_pois.length = 0 := fun hh => h (List.length_eq_zero.mp hh)
  have hms : city_pois.mergeSort byImportanceDesc ≠ [] := by
    intro hh
    apply hlen
    have := congrArg List.length hh
    simpa using this
  unfold __nms_city_pois
  rw [if_neg hlen]
  show nmsGo pairDist (0.02 * bounds.diagonal_m) []
        (city_pois.mergeSort byImportanceDesc) ≠ []
    ∧ (nmsGo pairDist (0.02 * bounds.diagonal_m) []
        (city_pois.mergeSort byImportanceDesc)).head? =
        (city_pois.mergeSort byImportanceDesc).head?
    ∧ ∃ c ∈ nmsGo pairDist (0.02 * bounds.diagonal_m) []
        (city_pois.mergeSort byImportanceDesc),
        ∀ x ∈ city_pois, x.importance ≤ c.importance
  cases hcase : city_pois.mergeSort byImportanceDesc with
  | nil => exact absurd hcase hms
  | cons hd tl =>
    have hstep : nmsGo pairDist (0.02 * bounds.diagonal_m) [] (hd :: tl) =
        hd :: nmsGo pairDist (0.02 * bounds.diagonal_m) [hd] tl := by
      rw [nmsGo]
      simp
    rw [hstep]
    refine ⟨by simp, rfl, hd, List.mem_cons_self _ _, ?_⟩
    intro x hx
    have hx' : x ∈ city_pois.mergeSort byImportanceDesc := List.mem_mergeSort.mpr hx
    rw [hcase] at hx'
    rcases List.mem_cons.mp hx' with hxe | hxt
    · subst hxe
      exact le_refl _
    · have hp := List.sorted_mergeSort byImportanceDesc_trans byImportanceDesc_total
        city_pois
      rw [hcase, List.pairwise_cons] at hp
      have := hp.1 x hxt
      simpa [byImportanceDesc] using this

/-- C8 witness: a singleton candidate list. -/
theorem nms_keeps_max_witness :
    __nms_city_pois (fun _ _ => 0)
        [⟨.CITY_POI_DEFAULT, "a", 5, [(0, 0)], (0, 0)⟩] ⟨0, 1, 0, 1, 100⟩ ≠ []
    ∧ (__nms_city_pois (fun _ _ => 0)
        [⟨.CITY_POI_DEFAULT, "a", 5, [(0, 0)], (0, 0)⟩] ⟨0, 1, 0, 1, 100⟩).head? =
        (([⟨.CITY_POI_DEFAULT, "a", 5, [(0, 0)], (0, 0)⟩] :
          List CandidateCityPoi).mergeSort byImportanceDesc).head?
    ∧ ∃ c ∈ __nms_city_pois (fun _ _ => 0)
        [⟨.CITY_POI_DEFAULT, "a", 5, [(0, 0)], (0, 0)⟩] ⟨0, 1, 0, 1, 100⟩,
        ∀ x ∈ ([⟨.CITY_POI_DEFAULT, "a", 5, [(0, 0)], (0, 0)⟩] :
          List CandidateCityPoi), x.importance ≤ c.importance :=
  nms_keeps_max (fun _ _ => 0) [⟨.CITY_POI_DEFAULT, "a", 5, [(0, 0)], (0, 0)⟩]
    ⟨0, 1, 0, 1, 100⟩ (by decide)

/-- C10.  NMS separation invariant: for a symmetric pairwise-distance
function, any two distinct candidates in the NMS output are at least
`0.02 * diagonal_m` apart (in both orientations), and the output is a
subsequence of the input sorted by descending importance. -/
theorem nms_separation (pairDist : ℚ × ℚ → ℚ × ℚ → ℚ)
    (city_pois : List CandidateCityPoi) (bounds : GpxBounds)
    (hsym : ∀ x y, pairDist x y = pairDist y x) :
    (__nms_city_pois pairDist city_pois bounds).Pairwise
      (fun a b => 0.02 * bounds.diagonal_m ≤ pairDist a.center_lonlat b.center_lonlat
        ∧ 0.02 * bounds.diagonal_m ≤ pairDist b.center_lonlat a.center_lonlat)
    ∧ (__nms_city_pois pairDist city_pois bounds).Sublist
        (city_pois.mergeSort byImportanceDesc) := by
  unfold __nms_city_pois
  split
  · exact ⟨List.Pairwise.nil, List.nil_sublist _⟩
  · constructor
    · refine List.Pairwise.imp ?_
        (nmsGo_pairwise pairDist (0.02 * bounds.diagonal_m)
          (city_pois.mergeSort byImportanceDesc) [])
      intro a b hab
      refine ⟨?_, not_lt.mp hab⟩
      rw [hsym a.center_lonlat b.center_lonlat]
      exact not_lt.mp hab
    · exact nmsGo_sublist pairDist (0.02 * bounds.diagonal_m)
        (city_pois.mergeSort byImportanceDesc) []

/-- C10 witness: a concrete symmetric distance and two candidates. -/
theorem nms_separation_witness :
    (__nms_city_pois (fun _ _ => 5)
        [⟨.CITY_POI_DEFAULT, "a", 5, [(0, 0)], (0, 0)⟩,
         ⟨.CITY_POI_DEFAULT, "b", 9, [(1, 1)], (1, 1)⟩] ⟨0, 1, 0, 1, 100⟩).Pairwise
      (fun a b => 0.02 * (⟨0, 1, 0, 1, 100⟩ : GpxBounds).diagonal_m ≤
          (fun (_ _ : ℚ × ℚ) => (5:ℚ)) a.center_lonlat b.center_lonlat
        ∧ 0.02 * (⟨0, 1, 0, 1, 100⟩ : GpxBounds).diagonal_m ≤
          (fun (_ _ : ℚ × ℚ) => (5:ℚ)) b.center_lonlat a.center_lonlat)
    ∧ (__nms_city_pois (fun _ _ => 5)
        [⟨.CITY_POI_DEFAULT, "a", 5, [(0, 0)], (0, 0)⟩,
         ⟨.CITY_POI_DEFAULT, "b", 9, [(1, 1)], (1, 1)⟩] ⟨0, 1, 0, 1, 100⟩).Sublist
        (([⟨.CITY_POI_DEFAULT, "a", 5, [(0, 0)], (0, 0)⟩,
           ⟨.CITY_POI_DEFAULT, "b", 9, [(1, 1)], (1, 1)⟩] :
          List CandidateCityPoi).mergeSort byImportanceDesc) :=
  nms_separation (fun _ _ => 5)
    [⟨.CITY_POI_DEFAULT, "a", 5, [(0, 0)], (0, 0)⟩,
     ⟨.CITY_POI_DEFAULT, "b", 9, [(1, 1)], (1, 1)⟩] ⟨0, 1, 0, 1, 100⟩
    (fun _ _ => rfl)

/-! ## C9: the implicit top-6 cap of `process_city_pois` -/

/-- In a descending-importance sorted list, an element of the first `n`
entries is beaten by fewer than `n` entries of the list. -/
theorem countP_gt_lt_of_mem_take {s : List CandidateCityPoi} {c : CandidateCityPoi}
    {n : ℕ}
    (hsorted : s.Pairwise (fun a b => byImportanceDesc a b = true))
    (hc : c ∈ s.take n) :
    s.countP (fun x => decide (c.importance < x.importance)) < n := by
  have hsplit : s.take n ++ s.drop n = s := List.take_append_drop n s
  have hpw : (s.take n ++ s.drop n).Pairwise (fun a b => byImportanceDesc a b = true) := by
    rw [hsplit]
    exact hsorted
  have hrel := (List.pairwise_append.mp hpw).2.2
  have hdrop : (s.drop n).countP (fun x => decide (c.importance < x.importance)) = 0 := by
    rw [List.countP_eq_zero]
    intro b hb
    have := hrel c hc b hb
    simp only [byImportanceDesc, decide_eq_true_eq] at this
    simp
    omega
  have hPc : (fun x => decide (c.importance < x.importance)) c = false := by simp
  have htake_ne : (s.take n).countP (fun x => decide (c.importance < x.importance)) ≠
      (s.take n).length := by
    intro he
    have hall := List.countP_eq_length.mp he c hc
    simp at hall
  have htake_le : (s.take n).countP (fun x => decide (c.importance < x.importance)) ≤
      (s.take n).length := List.countP_le_length _
  have hlen : (s.take n).length ≤ n := List.length_take_le n s
  have hsum : s.countP (fun x => decide (c.importance < x.importance)) =
      (s.take n).countP (fun x => decide (c.importance < x.importance)) +
      (s.drop n).countP (fun x => decide (c.importance < x.importance)) := by
    conv_lhs => rw [← hsplit]
    exact List.countP_append _ _ _
  omega

/-- C9.  On a cache miss, `process_city_pois` returns at most 6 points of
interest; each returned point comes from a candidate surviving the proximity
filter and the non-maximum suppression, and that candidate is among the 6 of
maximal importance: fewer than 6 survivors have strictly larger importance. -/
theorem process_city_pois_top6 (ways : List OsmWay) (relations : List OsmRelation)
    (pairDist : ℚ × ℚ → ℚ × ℚ → ℚ) (gpx_track : GpxTrack) :
    (process_city_pois none ways relations pairDist gpx_track).length ≤ 6
    ∧ ∀ pt ∈ process_city_pois none ways relations pairDist gpx_track,
        ∃ c ∈ __nms_city_pois pairDist
            (__filter_close_gpx gpx_track.distToTrack
              (candidatesFromWays ways ++ candidatesFromRelations relations))
            gpx_track.bounds,
          pt = toScatterPoint c
          ∧ (__nms_city_pois pairDist
              (__filter_close_gpx gpx_track.distToTrack
                (candidatesFromWays ways ++ candidatesFromRelations relations))
              gpx_track.bounds).countP
              (fun x => decide (c.importance < x.importance)) < 6 := by
  have hout : process_city_pois none ways relations pairDist gpx_track =
      (((__nms_city_pois pairDist
          (__filter_close_gpx gpx_track.distToTrack
            (candidatesFromWays ways ++ candidatesFromRelations relations))
          gpx_track.bounds).mergeSort byImportanceDesc).take 6).map toScatterPoint := rfl
  constructor
  · rw [hout, List.length_map]
    exact List.length_take_le 6 _
  · intro pt hpt
    rw [hout] at hpt
    obtain ⟨c, hc, hce⟩ := List.mem_map.mp hpt
    have hcs : c ∈ (__nms_city_pois pairDist
        (__filter_close_gpx gpx_track.distToTrack
          (candidatesFromWays ways ++ candidatesFromRelations relations))
        gpx_track.bounds).mergeSort byImportanceDesc := List.mem_of_mem_take hc
    refine ⟨c, List.mem_mergeSort.mp hcs, hce.symm, ?_⟩
    have hcount := countP_gt_lt_of_mem_take
      (List.sorted_mergeSort byImportanceDesc_trans byImportanceDesc_total
        (__nms_city_pois pairDist
          (__filter_close_gpx gpx_track.distToTrack
            (candidatesFromWays ways ++ candidatesFromRelations relations))
          gpx_track.bounds)) hc
    rw [((List.mergeSort_perm (__nms_city_pois pairDist
        (__filter_close_gpx gpx_track.distToTrack
          (candidatesFromWays ways ++ candidatesFromRelations relations))
        gpx_track.bounds) byImportanceDesc).symm).countP_eq
        (fun x => decide (c.importance < x.importance))]
    exact hcount

/-- C2 witness: the ramp evaluated on one diagonal per branch, plus one
concrete monotonicity instance. -/
theorem stream_visualization_ramp_witness :
    get_stream_visualization 12000 = (0, 0)
    ∧ get_stream_visualization 1000 = (rad2deg (4 / EARTH_RADIUS_M), 1)
    ∧ get_stream_visualization 6000 =
        (rad2deg ((2 + 2 * ((10000 - 6000) / 8000) ^ 2) / EARTH_RADIUS_M),
         ((10000 - 6000) / 8000) ^ 2)
    ∧ ((get_stream_visualization 8000).1 ≤ (get_stream_visualization 3000).1
       ∧ (get_stream_visualization 8000).2 ≤ (get_stream_visualization 3000).2) :=
  ⟨stream_visualization_ramp.1 12000 (by norm_num),
   stream_visualization_ramp.2.1 1000 (by norm_num),
   stream_visualization_ramp.2.2.1 6000 (by norm_num) (by norm_num),
   stream_visualization_ramp.2.2.2 3000 8000 (by norm_num)⟩

/-- C9 witness: a single palace way close to the track yields one returned
point, which survives the filter and NMS and is beaten by no survivor. -/
theorem process_city_pois_top6_witness :
    (process_city_pois none
      [⟨[("building", "palace"), ("name:en", "x"), ("alt_name", "y")], [(0, 0)], "Palace"⟩]
      [] (fun _ _ => 0) ⟨⟨0, 1, 0, 1, 100⟩, fun _ => 0⟩).length ≤ 6
    ∧ ∃ c ∈ __nms_city_pois (fun _ _ => 0)
          (__filter_close_gpx (⟨⟨0, 1, 0, 1, 100⟩, fun _ => 0⟩ : GpxTrack).distToTrack
            (candidatesFromWays
              [⟨[("building", "palace"), ("name:en", "x"), ("alt_name", "y")],
                [(0, 0)], "Palace"⟩] ++ candidatesFromRelations []))
          (⟨⟨0, 1, 0, 1, 100⟩, fun _ => 0⟩ : GpxTrack).bounds,
        (⟨"Palace", 0, 0, .CITY_POI_DEFAULT⟩ : ScatterPoint) = toScatterPoint c
        ∧ (__nms_city_pois (fun _ _ => 0)
            (__filter_close_gpx (⟨⟨0, 1, 0, 1, 100⟩, fun _ => 0⟩ : GpxTrack).distToTrack
              (candidatesFromWays
                [⟨[("building", "palace"), ("name:en", "x"), ("alt_name", "y")],
                  [(0, 0)], "Palace"⟩] ++ candidatesFromRelations []))
            (⟨⟨0, 1, 0, 1, 100⟩, fun _ => 0⟩ : GpxTrack).bounds).countP
            (fun x => decide (c.importance < x.importance)) < 6 := by
  have hcands : candidatesFromWays
        [⟨[("building", "palace"), ("name:en", "x"), ("alt_name", "y")],
          [(0, 0)], "Palace"⟩] ++ candidatesFromRelations [] =
      [⟨.CITY_POI_DEFAULT, "Palace", 14, [(0, 0)], (0, 0)⟩] := by
    simp +decide [candidatesFromWays, candidatesFromRelations, mkCandidateCityPoi,
      __get_importance_score, importanceTotal, tagKeyScore, tagsBonus, basicTagMatch,
      nameTagMatch, matchesAnyPrefix, tagsGet]
  have hcand : __filter_close_gpx
      (⟨⟨0, 1, 0, 1, 100⟩, fun _ => 0⟩ : GpxTrack).distToTrack
      (candidatesFromWays
        [⟨[("building", "palace"), ("name:en", "x"), ("alt_name", "y")],
          [(0, 0)], "Palace"⟩] ++ candidatesFromRelations []) =
      [⟨.CITY_POI_DEFAULT, "Palace", 14, [(0, 0)], (0, 0)⟩] := by
    rw [hcands]
    decide
  have hnms : __nms_city_pois (fun _ _ => 0)
      [⟨.CITY_POI_DEFAULT, "Palace", 14, [(0, 0)], (0, 0)⟩]
      (⟨⟨0, 1, 0, 1, 100⟩, fun _ => 0⟩ : GpxTrack).bounds =
      [⟨.CITY_POI_DEFAULT, "Palace", 14, [(0, 0)], (0, 0)⟩] := by
    simp [__nms_city_pois, nmsGo]
  have hout : process_city_pois none
      [⟨[("building", "palace"), ("name:en", "x"), ("alt_name", "y")], [(0, 0)], "Palace"⟩]
      [] (fun _ _ => 0) ⟨⟨0, 1, 0, 1, 100⟩, fun _ => 0⟩ =
      [⟨"Palace", 0, 0, .CITY_POI_DEFAULT⟩] := by
    show (((__nms_city_pois (fun _ _ => 0)
        (__filter_close_gpx (⟨⟨0, 1, 0, 1, 100⟩, fun _ => 0⟩ : GpxTrack).distToTrack
          (candidatesFromWays
            [⟨[("building", "palace"), ("name:en", "x"), ("alt_name", "y")],
              [(0, 0)], "Palace"⟩] ++ candidatesFromRelations []))
        (⟨⟨0, 1, 0, 1, 100⟩, fun _ => 0⟩ : GpxTrack).bounds).mergeSort
          byImportanceDesc).take 6).map toScatterPoint =
      [⟨"Palace", 0, 0, .CITY_POI_DEFAULT⟩]
    rw [hcand, hnms, List.mergeSort_singleton]
    decide
  refine ⟨(process_city_pois_top6
      [⟨[("building", "palace"), ("name:en", "x"), ("alt_name", "y")], [(0, 0)], "Palace"⟩]
      [] (fun _ _ => 0) ⟨⟨0, 1, 0, 1, 100⟩, fun _ => 0⟩).1,
    (process_city_pois_top6
      [⟨[("building", "palace"), ("name:en", "x"), ("alt_name", "y")], [(0, 0)], "Palace"⟩]
      [] (fun _ _ => 0) ⟨⟨0, 1, 0, 1, 100⟩, fun _ => 0⟩).2
      ⟨"Palace", 0, 0, .CITY_POI_DEFAULT⟩ ?_⟩
  rw [hout]
  exact List.mem_singleton.mpr (by decide)

end PrettyGpx
